import Mathlib

/-!
Verification of `better-sqlite3-utils` (src/index.js), a small convenience
layer over an embedded SQLite engine.  The module exports four functions:

* `connectDb(filename, options)` — resolves the database path from the
  argument, else the `SQLITE3_FILE` environment variable, else `":memory:"`,
  opens the database, sets the `journal_mode = WAL` pragma, and registers a
  process-exit hook that closes the handle;
* `disconnectDb(db)` — best-effort close wrapped in `try { } catch {}`;
* `prepStmt(db, sql, singleton)` — prepares `sql` and classifies it via the
  regex `/^\s*select\s+/i`: no match gives method `"run"`, a match gives
  `"get"` when `singleton` is truthy and `"all"` otherwise;
* `execStmt(wstmt, ...params)` — maps each parameter `p` to
  `Object.values(p)` when `typeof p === "object"`, flattens the result with
  `.flat(Infinity)`, and dispatches on the stored method.

The embedding below models JavaScript values, truthiness, `typeof`,
`Object.values`, array flattening, and each exported function, translated
directly from the source.
-/

/-- A JavaScript value, as far as this module inspects one: `null`,
`undefined`, booleans, numbers (modelled as integers; the module only ever
tests truthiness of numbers), strings, arrays, and plain objects as
association lists in property-insertion order. -/
inductive JSVal where
  | null : JSVal
  | undef : JSVal
  | bool : Bool → JSVal
  | num : Int → JSVal
  | str : String → JSVal
  | arr : List JSVal → JSVal
  | obj : List (String × JSVal) → JSVal
deriving Repr

/-- JavaScript `typeof`.  Note `typeof null === "object"`. -/
def JSVal.typeofStr : JSVal → String
  | .null => "object"
  | .undef => "undefined"
  | .bool _ => "boolean"
  | .num _ => "number"
  | .str _ => "string"
  | .arr _ => "object"
  | .obj _ => "object"

/-- JavaScript truthiness: `null`, `undefined`, `false`, `0` and `""` are
falsy, everything else this module can see is truthy. -/
def JSVal.truthy : JSVal → Bool
  | .null => false
  | .undef => false
  | .bool b => b
  | .num n => n ≠ 0
  | .str s => s ≠ ""
  | .arr _ => true
  | .obj _ => true

/-- Errors the embedded fragment of `execStmt` can raise: the `TypeError`
thrown by `Object.values(null)` / `Object.values(undefined)`, and the
`Invalid method` error of `execStmt`'s `default` branch. -/
inductive JSError where
  | typeError : JSError
  | invalidMethod : String → JSError
deriving Repr, DecidableEq

/-- Numeric value of an all-digit key string. -/
def keyToNat (s : String) : Nat :=
  s.data.foldl (fun n c => 10 * n + (c.toNat - 48)) 0

/-- Whether a property key is an ECMAScript array index: a canonical
numeric string (digits only, no leading zero except `"0"` itself) whose
numeric value is below `2^32 - 1`. -/
def isArrayIndexKey (s : String) : Bool :=
  s != "" && s.data.all Char.isDigit &&
  (s == "0" || s.data.head? != some '0') &&
  decide (keyToNat s ≤ 4294967294)

/-- Insertion step of sorting property entries by ascending numeric key. -/
def insertByIdx (x : String × JSVal) : List (String × JSVal) → List (String × JSVal)
  | [] => [x]
  | y :: ys => if keyToNat x.1 ≤ keyToNat y.1 then x :: y :: ys else y :: insertByIdx x ys

/-- Sort property entries by ascending numeric key (used only on entries
whose keys are array indices; such keys are canonical and hence distinct
numeric values on a well-formed object). -/
def sortByIdx : List (String × JSVal) → List (String × JSVal)
  | [] => []
  | x :: xs => insertByIdx x (sortByIdx xs)

/-- `OrdinaryOwnPropertyKeys` order of an object's property values: the
values of array-index keys first, in ascending numeric order, then the
values of the remaining string keys in property-insertion order. -/
def ownPropertyValues (ps : List (String × JSVal)) : List JSVal :=
  (sortByIdx (ps.filter fun kv => isArrayIndexKey kv.1)).map Prod.snd ++
  (ps.filter fun kv => !isArrayIndexKey kv.1).map Prod.snd

/-- `Object.values`: throws a `TypeError` on `null` and `undefined`; on an
array gives the elements, on an object the property values in JavaScript's
own-property-key order (array-index keys in ascending numeric order before
the remaining keys in insertion order), on a string its characters, on
other primitives the empty list. -/
def objectValues : JSVal → Except JSError (List JSVal)
  | .null => .error .typeError
  | .undef => .error .typeError
  | .arr es => .ok es
  | .obj ps => .ok (ownPropertyValues ps)
  | .str s => .ok (s.data.map fun c => .str (String.mk [c]))
  | .bool _ => .ok []
  | .num _ => .ok []

mutual
/-- `Array.prototype.flat(Infinity)` on a single element: an array is
replaced by its fully flattened elements, anything else is kept. -/
def JSVal.flatten : JSVal → List JSVal
  | .arr es => flattenList es
  | .null => [.null]
  | .undef => [.undef]
  | .bool b => [.bool b]
  | .num n => [.num n]
  | .str s => [.str s]
  | .obj ps => [.obj ps]

/-- `Array.prototype.flat(Infinity)` on an array of elements. -/
def flattenList : List JSVal → List JSVal
  | [] => []
  | v :: vs => v.flatten ++ flattenList vs
end

/-- The character class `\s` of a JavaScript regex (no `u` flag):
`WhiteSpace` (TAB, VT, FF, SP, NBSP, ZWNBSP and the Unicode `Zs` category)
together with `LineTerminator` (LF, CR, LS, PS). -/
def isJsWhitespace (c : Char) : Bool :=
  c.val = 0x09 || c.val = 0x0A || c.val = 0x0B || c.val = 0x0C || c.val = 0x0D ||
  c.val = 0x20 || c.val = 0xA0 || c.val = 0x1680 ||
  (0x2000 ≤ c.val && c.val ≤ 0x200A) ||
  c.val = 0x2028 || c.val = 0x2029 || c.val = 0x202F || c.val = 0x205F ||
  c.val = 0x3000 || c.val = 0xFEFF

/-- After the whitespace prefix has been dropped, the regex
`/^\s*select\s+/i` requires the six letters of `select` (ASCII
case-insensitively, which is what the `i` flag gives for ASCII pattern
letters without the `u` flag) followed by at least one `\s` character. -/
def selectKeywordAt : List Char → Bool
  | c1 :: c2 :: c3 :: c4 :: c5 :: c6 :: c7 :: _ =>
      c1.toLower = 's' && c2.toLower = 'e' && c3.toLower = 'l' &&
      c4.toLower = 'e' && c5.toLower = 'c' && c6.toLower = 't' &&
      isJsWhitespace c7
  | _ => false

/-- Whether `selectKeyword = /^\s*select\s+/i` matches `sql`.  The pattern
is anchored and `select` starts with a non-`\s` character, so the greedy
`\s*` necessarily consumes exactly the maximal whitespace prefix. -/
def matchesSelectKeyword (sql : String) : Bool :=
  selectKeywordAt (sql.data.dropWhile isJsWhitespace)

/-- `sql.search(selectKeyword)`: the match, if any, is anchored at index 0,
so `search` returns `0` on a match and `-1` otherwise. -/
def searchSelect (sql : String) : Int :=
  if matchesSelectKeyword sql then 0 else -1

/-- The wrapped statement returned by `prepStmt`: the prepared statement
(identified by its SQL source — `db.prepare(sql)` compiles exactly `sql`)
together with the chosen execution-method name. -/
structure WrappedStmt where
  stmt : String
  method : String
deriving Repr, DecidableEq

/-- `prepStmt(db, sql, singleton)`:
`method = sql.search(selectKeyword) < 0 ? "run" : singleton ? "get" : "all"`.
The opaque `db.prepare(sql)` call is modelled by recording `sql` itself in
the `stmt` field. -/
def prepStmt (sql : String) (singleton : JSVal) : WrappedStmt :=
  { stmt := sql
    method := if searchSelect sql < 0 then "run"
              else if singleton.truthy then "get" else "all" }

/-- One parameter of `execStmt`'s mapping step:
`typeof param === "object" ? Object.values(param) : param`. -/
def mapParam (p : JSVal) : Except JSError JSVal :=
  if p.typeofStr = "object" then (objectValues p).map JSVal.arr else .ok p

/-- `params.map((param) => ...)` with JavaScript exception semantics: the
first throwing callback aborts the whole map. -/
def mapParams : List JSVal → Except JSError (List JSVal)
  | [] => .ok []
  | p :: ps =>
      match mapParam p with
      | .error e => .error e
      | .ok v =>
          match mapParams ps with
          | .error e => .error e
          | .ok vs => .ok (v :: vs)

/-- The whole parameter transformation of `execStmt`:
`params.map(...).flat(Infinity)`. -/
def flattenParams (params : List JSVal) : Except JSError (List JSVal) :=
  match mapParams params with
  | .error e => .error e
  | .ok mapped => .ok (flattenList mapped)

/-- The observable outcome of `execStmt`: which method of the underlying
prepared statement is invoked, with which (single, array) argument. -/
inductive StmtCall where
  | run : List JSVal → StmtCall
  | get : List JSVal → StmtCall
  | all : List JSVal → StmtCall
deriving Repr

/-- The `switch (method)` of `execStmt`, applied to the flattened
parameter array. -/
def stmtDispatch (method : String) (fp : List JSVal) : Except JSError StmtCall :=
  if method = "run" then .ok (.run fp)
  else if method = "get" then .ok (.get fp)
  else if method = "all" then .ok (.all fp)
  else .error (.invalidMethod method)

/-- `execStmt(wstmt, ...params)`: flatten the parameters (this step can
throw, before any statement method runs), then dispatch on the method. -/
def execStmt (wstmt : WrappedStmt) (params : List JSVal) : Except JSError StmtCall :=
  match flattenParams params with
  | .error e => .error e
  | .ok fp => stmtDispatch wstmt.method fp

/-- The build-up side effects `connectDb` performs on the fresh handle, in
program order, before returning it. -/
inductive DbEffect where
  | openDb : JSVal → JSVal → DbEffect
  | pragma : String → DbEffect
  | registerExitHook : DbEffect
deriving Repr

/-- Result of a `connectDb` call: the filename and options handed to
`new Database(filename, options)`, the side effects performed on the handle
before it is returned, and the process environment afterwards (the
environment maps variable names to their string values, `none` = unset). -/
structure ConnectOutcome where
  dbFilename : JSVal
  dbOptions : JSVal
  effects : List DbEffect
  envAfter : String → Option String

/-- The argument-overload juggling at the top of `connectDb`: with exactly
one argument of `typeof ... === "object"`, that argument is the options and
the filename becomes `undefined`. -/
def resolveArgs (args : List JSVal) : JSVal × JSVal :=
  match args with
  | [] => (.undef, .undef)
  | [a] => if a.typeofStr = "object" then (.undef, a) else (a, .undef)
  | a :: b :: _ => (a, b)

/-- The line `filename ||= process.env.SQLITE3_FILE ||= ":memory:"`.  The
logical-or assignments short-circuit: when `filename` is truthy nothing else
is evaluated; otherwise the environment variable is read, and only when it
is itself falsy (unset or `""`) is it assigned `":memory:"` — the one
environment mutation in the module.  Returns the resolved filename and the
environment afterwards; a value read from the environment is always a
string. -/
def resolveFilenameEnv (filename0 : JSVal) (env : String → Option String) :
    JSVal × (String → Option String) :=
  if filename0.truthy then (filename0, env)
  else
    match env "SQLITE3_FILE" with
    | some s =>
        if s ≠ "" then (JSVal.str s, env)
        else (JSVal.str ":memory:",
              fun k => if k = "SQLITE3_FILE" then some ":memory:" else env k)
    | none =>
        (JSVal.str ":memory:",
         fun k => if k = "SQLITE3_FILE" then some ":memory:" else env k)

/-- `connectDb(filename, options)`: resolve the overloaded arguments,
resolve the filename (possibly mutating the environment), then
`new Database(filename, options)`, `db.pragma('journal_mode = WAL')` and
`process.on('exit', () => db.close())`, in that order, before returning. -/
def connectDb (args : List JSVal) (env : String → Option String) : ConnectOutcome :=
  let filename0 := (resolveArgs args).1
  let options := (resolveArgs args).2
  let fe := resolveFilenameEnv filename0 env
  { dbFilename := fe.1
    dbOptions := options
    effects := [.openDb fe.1 options, .pragma "journal_mode = WAL", .registerExitHook]
    envAfter := fe.2 }

/-- `disconnectDb(db)`: whatever the underlying `db.close()` does — return
normally or throw — the surrounding `try { } catch (err) {}` discards the
error.  The behaviour of the opaque `close` call is the argument. -/
def disconnectDb (closeResult : Except JSError Unit) : Except JSError Unit :=
  match closeResult with
  | .ok _ => .ok ()
  | .error _ => .ok ()

/-- Who invokes `close()` on the handle during a process execution: a user
call to `disconnectDb`, or the exit hook registered by `connectDb`. -/
inductive CloseSource where
  | user : CloseSource
  | hook : CloseSource
deriving Repr, DecidableEq

/-- Run a sequence of `close()` invocations against the handle's open/closed
state and record which invocations actually release the handle (close an
open handle); `close` on an already-closed better-sqlite3 handle does not
reopen anything, so every invocation leaves the handle closed. -/
def releaseEvents : Bool → List CloseSource → List CloseSource
  | _, [] => []
  | isOpen, s :: rest => (if isOpen then [s] else []) ++ releaseEvents false rest

/-- A process execution on one handle obtained from `connectDb`: the user
calls `disconnectDb` some `n` times (each performs one `close()` inside its
`try`), and at normal process exit the hook registered by `connectDb` runs
`() => db.close()` once. -/
def processCloses (n : Nat) : List CloseSource :=
  List.replicate n .user ++ [.hook]

/-- Whether a value is a JavaScript array. -/
def JSVal.isArr : JSVal → Bool
  | .arr _ => true
  | _ => false

/-- Spec-side statement of the hypothesis of claims C1/C2: the SQL string
begins, after optional leading whitespace, with the keyword `select`
(ASCII case-insensitively) followed by a whitespace character.  Stated
structurally, independently of the regex engine model. -/
def beginsWithSelectKeyword (sql : String) : Prop :=
  ∃ ws s c rest, sql.data = ws ++ s ++ c :: rest ∧
    (∀ x ∈ ws, isJsWhitespace x = true) ∧
    s.map Char.toLower = "select".data ∧
    isJsWhitespace c = true

/-- Spec-side (amended claim C3): the property values of a value of object
type, in JavaScript's own-property-key order — an object contributes the
values of its array-index keys in ascending numeric order followed by the
values of its remaining keys in insertion order, an array its elements;
`null` has none. -/
def propertyValues : JSVal → List JSVal
  | .obj ps => ownPropertyValues ps
  | .arr es => es
  | _ => []

/-- Spec-side (amended claim C3): a parameter of object type is replaced by
the list of its property values in insertion order; a non-object parameter
passes through unchanged. -/
def specMapParam (p : JSVal) : JSVal :=
  if p.typeofStr = "object" then .arr (propertyValues p) else p

theorem char_toNat_ofNat_of_lt {n : Nat} (h : n < 55296) : (Char.ofNat n).toNat = n := by
  have hv : n.isValidChar := Or.inl h
  rw [Char.ofNat, dif_pos hv]
  rfl

theorem char_eq_of_toNat_eq {c d : Char} (h : c.toNat = d.toNat) : c = d := by
  have hc := Char.ofNat_toNat c
  rw [h, Char.ofNat_toNat] at hc
  exact hc.symm

/-- `Char.toLower` maps a character to a lowercase ASCII letter `p` exactly
when the character is `p` itself or its uppercase counterpart `P`. -/
theorem toLower_eq_ascii_iff {c p P : Char} (hP : P.toNat + 32 = p.toNat)
    (hp1 : 97 ≤ p.toNat) (hp2 : p.toNat ≤ 122) :
    c.toLower = p ↔ (c = p ∨ c = P) := by
  constructor
  · intro h
    unfold Char.toLower at h
    dsimp only at h
    split at h
    · next hc =>
        right
        have h1 : (Char.ofNat (c.toNat + 32)).toNat = c.toNat + 32 :=
          char_toNat_ofNat_of_lt (by omega)
        rw [h] at h1
        exact char_eq_of_toNat_eq (by omega)
    · exact Or.inl h
  · rintro (rfl | rfl)
    · unfold Char.toLower
      dsimp only
      rw [if_neg (by omega)]
    · unfold Char.toLower
      dsimp only
      rw [if_pos (by omega), hP, Char.ofNat_toNat]

theorem dropWhile_all_append {p : Char → Bool} :
    ∀ (ws : List Char) (c : Char) (l : List Char),
      (∀ x ∈ ws, p x = true) → p c = false →
      (ws ++ c :: l).dropWhile p = c :: l := by
  intro ws
  induction ws with
  | nil =>
      intro c l _ hc
      simp [List.dropWhile_cons, hc]
  | cons a as ih =>
      intro c l hws hc
      have ha : p a = true := hws a (by simp)
      simp only [List.cons_append, List.dropWhile_cons, ha, if_true]
      exact ih c l (fun x hx => hws x (by simp [hx])) hc

theorem selectKeywordAt_spec {l : List Char} (h : selectKeywordAt l = true) :
    ∃ c1 c2 c3 c4 c5 c6 c7 t, l = c1 :: c2 :: c3 :: c4 :: c5 :: c6 :: c7 :: t ∧
      c1.toLower = 's' ∧ c2.toLower = 'e' ∧ c3.toLower = 'l' ∧ c4.toLower = 'e' ∧
      c5.toLower = 'c' ∧ c6.toLower = 't' ∧ isJsWhitespace c7 = true := by
  rcases l with _ | ⟨c1, _ | ⟨c2, _ | ⟨c3, _ | ⟨c4, _ | ⟨c5, _ | ⟨c6, _ | ⟨c7, t⟩⟩⟩⟩⟩⟩⟩
  all_goals simp [selectKeywordAt] at h
  obtain ⟨⟨⟨⟨⟨⟨h1, h2⟩, h3⟩, h4⟩, h5⟩, h6⟩, h7⟩ := h
  exact ⟨c1, c2, c3, c4, c5, c6, c7, t, rfl, h1, h2, h3, h4, h5, h6, h7⟩

/-- The regex model agrees with the structural statement of "begins with
the SELECT keyword". -/
theorem matchesSelectKeyword_iff_begins (sql : String) :
    matchesSelectKeyword sql = true ↔ beginsWithSelectKeyword sql := by
  constructor
  · intro h
    unfold matchesSelectKeyword at h
    obtain ⟨c1, c2, c3, c4, c5, c6, c7, t, hd, h1, h2, h3, h4, h5, h6, h7⟩ :=
      selectKeywordAt_spec h
    refine ⟨sql.data.takeWhile isJsWhitespace, [c1, c2, c3, c4, c5, c6], c7, t, ?_, ?_, ?_, h7⟩
    · conv_lhs => rw [← List.takeWhile_append_dropWhile isJsWhitespace sql.data]
      rw [hd]
      simp
    · intro x hx
      exact List.mem_takeWhile_imp hx
    · simp [h1, h2, h3, h4, h5, h6]
  · rintro ⟨ws, s, c, rest, hdec, hws, hmap, hc⟩
    rcases s with _ | ⟨s1, _ | ⟨s2, _ | ⟨s3, _ | ⟨s4, _ | ⟨s5, _ | ⟨s6, srest⟩⟩⟩⟩⟩⟩
    all_goals simp [String.data] at hmap
    obtain ⟨h1, h2, h3, h4, h5, h6, h7⟩ := hmap
    subst h7
    have hs1 : isJsWhitespace s1 = false := by
      rcases (@toLower_eq_ascii_iff s1 's' 'S' (by decide) (by decide) (by decide)).mp h1
        with rfl | rfl
      · decide
      · decide
    unfold matchesSelectKeyword
    rw [hdec]
    simp only [List.append_assoc, List.cons_append, List.nil_append]
    rw [dropWhile_all_append ws s1 _ hws hs1]
    simp [selectKeywordAt, h1, h2, h3, h4, h5, h6, hc]

theorem mapParam_of_ne_null {p : JSVal} (h : p ≠ JSVal.null) :
    mapParam p = .ok (specMapParam p) := by
  cases p <;>
    simp [mapParam, specMapParam, objectValues, Except.map, JSVal.typeofStr,
      propertyValues] at h ⊢

theorem mapParam_error {p : JSVal} {e : JSError} (h : mapParam p = .error e) :
    p = JSVal.null ∧ e = .typeError := by
  cases p <;> simp [mapParam, objectValues, Except.map, JSVal.typeofStr] at h ⊢
  exact h.symm

theorem mapParams_of_no_null {params : List JSVal} (h : JSVal.null ∉ params) :
    mapParams params = .ok (params.map specMapParam) := by
  induction params with
  | nil => rfl
  | cons p ps ih =>
      have hp : p ≠ JSVal.null := fun hEq => h (hEq ▸ List.mem_cons_self p ps)
      have hps : JSVal.null ∉ ps := fun hm => h (List.mem_cons_of_mem p hm)
      rw [mapParams, mapParam_of_ne_null hp, ih hps]
      rfl

theorem mapParams_of_null_mem {params : List JSVal} (h : JSVal.null ∈ params) :
    mapParams params = .error .typeError := by
  induction params with
  | nil => cases h
  | cons p ps ih =>
      rcases List.mem_cons.mp h with rfl | hmem
      · rfl
      · rw [mapParams]
        cases hv : mapParam p with
        | error e => rw [(mapParam_error hv).2]
        | ok v => rw [ih hmem]

theorem mapParams_error : ∀ {params : List JSVal} {e : JSError},
    mapParams params = .error e → e = .typeError := by
  intro params
  induction params with
  | nil => intro e h; cases h
  | cons p ps ih =>
      intro e h
      rw [mapParams] at h
      cases hv : mapParam p with
      | error e1 =>
          rw [hv] at h
          cases h
          exact (mapParam_error hv).2
      | ok v =>
          rw [hv] at h
          cases hm : mapParams ps with
          | error e2 =>
              rw [hm] at h
              cases h
              exact ih hm
          | ok l =>
              rw [hm] at h
              cases h

theorem flattenParams_of_no_null {params : List JSVal} (h : JSVal.null ∉ params) :
    flattenParams params = .ok (flattenList (params.map specMapParam)) := by
  unfold flattenParams
  rw [mapParams_of_no_null h]

theorem flattenParams_of_null_mem {params : List JSVal} (h : JSVal.null ∈ params) :
    flattenParams params = .error .typeError := by
  unfold flattenParams
  rw [mapParams_of_null_mem h]

theorem flattenParams_error {params : List JSVal} {e : JSError}
    (h : flattenParams params = .error e) : e = .typeError := by
  unfold flattenParams at h
  cases hm : mapParams params with
  | ok l => rw [hm] at h; cases h
  | error e1 =>
      rw [hm] at h
      cases h
      exact mapParams_error hm

mutual
theorem flatten_no_array : ∀ (v : JSVal), ∀ w ∈ v.flatten, w.isArr = false
  | .arr es => by
      intro w hw
      rw [JSVal.flatten] at hw
      exact flattenList_no_array es w hw
  | .null => by intro w hw; rw [JSVal.flatten] at hw; simp at hw; subst hw; rfl
  | .undef => by intro w hw; rw [JSVal.flatten] at hw; simp at hw; subst hw; rfl
  | .bool b => by intro w hw; rw [JSVal.flatten] at hw; simp at hw; subst hw; rfl
  | .num n => by intro w hw; rw [JSVal.flatten] at hw; simp at hw; subst hw; rfl
  | .str s => by intro w hw; rw [JSVal.flatten] at hw; simp at hw; subst hw; rfl
  | .obj ps => by intro w hw; rw [JSVal.flatten] at hw; simp at hw; subst hw; rfl

theorem flattenList_no_array : ∀ (l : List JSVal), ∀ w ∈ flattenList l, w.isArr = false
  | [] => by intro w hw; rw [flattenList] at hw; cases hw
  | v :: vs => by
      intro w hw
      rw [flattenList] at hw
      rcases List.mem_append.mp hw with h | h
      · exact flatten_no_array v w h
      · exact flattenList_no_array vs w h
end

/-- C1: for every SQL string that begins, after optional leading whitespace,
with the keyword SELECT followed by whitespace (matched case-insensitively),
`prepStmt` classifies the prepared statement as a query: a truthy
`singleton` makes `execStmt` invoke the underlying statement's single-row
fetch `get`, an absent or falsy `singleton` the multi-row fetch `all`. -/
theorem prepStmt_select_routes_query (sql : String) (singleton : JSVal)
    (h : beginsWithSelectKeyword sql) :
    (prepStmt sql singleton).method = (if singleton.truthy then "get" else "all") ∧
    ∀ params, execStmt (prepStmt sql singleton) params =
      (flattenParams params).map
        (fun fp => if singleton.truthy then StmtCall.get fp else StmtCall.all fp) := by
  have hm : matchesSelectKeyword sql = true := (matchesSelectKeyword_iff_begins sql).mpr h
  have hmethod : (prepStmt sql singleton).method =
      (if singleton.truthy then "get" else "all") := by
    simp [prepStmt, searchSelect, hm]
  refine ⟨hmethod, fun params => ?_⟩
  unfold execStmt
  cases hfp : flattenParams params with
  | error e => rfl
  | ok fp =>
      rw [hmethod]
      cases htr : singleton.truthy <;> rfl

/-- Witness for C1 at the query `SELECT * FROM t` with a truthy and a falsy
singleton flag. -/
theorem prepStmt_select_routes_query_witness :
    (prepStmt "SELECT * FROM t" (JSVal.bool true)).method = "get" ∧
    execStmt (prepStmt "SELECT * FROM t" (JSVal.bool true)) [JSVal.num 7] =
      .ok (.get [JSVal.num 7]) ∧
    execStmt (prepStmt "SELECT * FROM t" JSVal.undef) [JSVal.num 7] =
      .ok (.all [JSVal.num 7]) := by
  have hb : beginsWithSelectKeyword "SELECT * FROM t" :=
    ⟨[], ['S', 'E', 'L', 'E', 'C', 'T'], ' ', "* FROM t".data,
      by decide, by decide, by decide, by decide⟩
  have h1 := prepStmt_select_routes_query "SELECT * FROM t" (JSVal.bool true) hb
  have h2 := prepStmt_select_routes_query "SELECT * FROM t" JSVal.undef hb
  refine ⟨?_, ?_, ?_⟩
  · rw [h1.1]
    rfl
  · rw [h1.2 [JSVal.num 7]]
    rfl
  · rw [h2.2 [JSVal.num 7]]
    rfl

/-- C2: for every SQL string that does not begin with a leading SELECT
keyword, and every singleton value, `prepStmt` classifies the statement as a
mutation, so `execStmt` invokes the underlying statement's `run` method. -/
theorem prepStmt_nonselect_routes_run (sql : String) (singleton : JSVal)
    (h : ¬ beginsWithSelectKeyword sql) :
    (prepStmt sql singleton).method = "run" ∧
    ∀ params, execStmt (prepStmt sql singleton) params =
      (flattenParams params).map StmtCall.run := by
  have hm : matchesSelectKeyword sql = false := by
    cases hb : matchesSelectKeyword sql with
    | false => rfl
    | true => exact absurd ((matchesSelectKeyword_iff_begins sql).mp hb) h
  have hmethod : (prepStmt sql singleton).method = "run" := by
    simp [prepStmt, searchSelect, hm]
  refine ⟨hmethod, fun params => ?_⟩
  unfold execStmt
  cases hfp : flattenParams params with
  | error e => rfl
  | ok fp =>
      rw [hmethod]
      rfl

/-- Witness for C2 at an INSERT statement, with both a truthy and a falsy
singleton flag. -/
theorem prepStmt_nonselect_routes_run_witness :
    (prepStmt "INSERT INTO t VALUES (?)" (JSVal.bool true)).method = "run" ∧
    execStmt (prepStmt "INSERT INTO t VALUES (?)" (JSVal.bool true)) [JSVal.num 3] =
      .ok (.run [JSVal.num 3]) ∧
    execStmt (prepStmt "INSERT INTO t VALUES (?)" JSVal.undef) [JSVal.num 3] =
      .ok (.run [JSVal.num 3]) := by
  have hnb : ¬ beginsWithSelectKeyword "INSERT INTO t VALUES (?)" := fun hb =>
    absurd ((matchesSelectKeyword_iff_begins _).mpr hb) (by decide)
  have h1 := prepStmt_nonselect_routes_run "INSERT INTO t VALUES (?)" (JSVal.bool true) hnb
  have h2 := prepStmt_nonselect_routes_run "INSERT INTO t VALUES (?)" JSVal.undef hnb
  refine ⟨h1.1, ?_, ?_⟩
  · rw [h1.2 [JSVal.num 3]]
    rfl
  · rw [h2.2 [JSVal.num 3]]
    rfl

/-- Counterexample to C3 as stated, at two concrete inputs: at the
parameter list `[null]` (and `null` is a value of object type in
JavaScript), `execStmt` throws a TypeError instead of handing a flattened
array to the execution method; and at the single object parameter
`{2: "b", 1: "a"}`, whose insertion order is `["b", "a"]`, `execStmt` hands
the execution method the values in ascending numeric key order
`["a", "b"]`, not in insertion order. -/
theorem execStmt_flattening_counterexample :
    (execStmt ⟨"INSERT INTO t VALUES (?)", "run"⟩ [JSVal.null] = .error .typeError ∧
     execStmt ⟨"INSERT INTO t VALUES (?)", "run"⟩ [JSVal.null] ≠
       .ok (.run [JSVal.null])) ∧
    (execStmt ⟨"INSERT INTO t VALUES (?, ?)", "run"⟩
        [JSVal.obj [("2", JSVal.str "b"), ("1", JSVal.str "a")]] =
      .ok (.run [JSVal.str "a", JSVal.str "b"]) ∧
     execStmt ⟨"INSERT INTO t VALUES (?, ?)", "run"⟩
        [JSVal.obj [("2", JSVal.str "b"), ("1", JSVal.str "a")]] ≠
      .ok (.run [JSVal.str "b", JSVal.str "a"])) := by
  refine ⟨⟨rfl, fun hcontra => Except.noConfusion hcontra⟩, rfl, fun hcontra => ?_⟩
  rw [show execStmt ⟨"INSERT INTO t VALUES (?, ?)", "run"⟩
      [JSVal.obj [("2", JSVal.str "b"), ("1", JSVal.str "a")]] =
      .ok (.run [JSVal.str "a", JSVal.str "b"]) from rfl] at hcontra
  simp at hcontra

/-- C3 (amended): for every parameter list free of top-level `null`, each
parameter of object type is replaced by the list of its property values in
JavaScript's own-property-key order — the values of array-index keys in
ascending numeric order, then the values of the remaining keys in insertion
order — the result is flattened to unbounded depth (no array survives in
it), non-object parameters pass through unchanged, and the flattened array
is what is handed to the underlying statement's execution method; a `null`
parameter instead raises a TypeError. -/
theorem execStmt_flattens_params (w : WrappedStmt) (params : List JSVal)
    (h : JSVal.null ∉ params) :
    flattenParams params = .ok (flattenList (params.map specMapParam)) ∧
    (∀ p ∈ params, p.typeofStr ≠ "object" → specMapParam p = p) ∧
    (∀ v ∈ flattenList (params.map specMapParam), v.isArr = false) ∧
    execStmt w params = stmtDispatch w.method (flattenList (params.map specMapParam)) := by
  have hfp := flattenParams_of_no_null h
  refine ⟨hfp, ?_, ?_, ?_⟩
  · intro p _ hp
    simp [specMapParam, hp]
  · exact flattenList_no_array _
  · unfold execStmt
    rw [hfp]

/-- Witness for C3 (amended): an object parameter with plain string keys is
expanded to its property values in insertion order, a nested array is fully
flattened and a number passes through unchanged; an object parameter with
numeric keys is expanded in ascending numeric key order. -/
theorem execStmt_flattens_params_witness :
    execStmt ⟨"INSERT INTO t VALUES (?, ?, ?, ?)", "run"⟩
      [JSVal.num 1,
       JSVal.obj [("a", JSVal.num 2), ("b", JSVal.arr [JSVal.num 3, JSVal.arr [JSVal.num 4]])]] =
      .ok (.run [JSVal.num 1, JSVal.num 2, JSVal.num 3, JSVal.num 4]) ∧
    execStmt ⟨"SELECT * FROM t WHERE a = ? AND b = ?", "all"⟩
      [JSVal.obj [("2", JSVal.str "b"), ("1", JSVal.str "a")]] =
      .ok (.all [JSVal.str "a", JSVal.str "b"]) := by
  have h1 := execStmt_flattens_params ⟨"INSERT INTO t VALUES (?, ?, ?, ?)", "run"⟩
    [JSVal.num 1,
     JSVal.obj [("a", JSVal.num 2), ("b", JSVal.arr [JSVal.num 3, JSVal.arr [JSVal.num 4]])]]
    (by simp)
  have h2 := execStmt_flattens_params ⟨"SELECT * FROM t WHERE a = ? AND b = ?", "all"⟩
    [JSVal.obj [("2", JSVal.str "b"), ("1", JSVal.str "a")]] (by simp)
  constructor
  · rw [h1.2.2.2]
    rfl
  · rw [h2.2.2.2]
    rfl

/-- C8: whenever any element of the parameter list is `null`, `execStmt`
throws a TypeError during parameter flattening (`Object.values(null)`), and
no execution method of the underlying statement is invoked — the result is
the error, not a `StmtCall`. -/
theorem execStmt_null_param_typeError (w : WrappedStmt) (params : List JSVal)
    (h : JSVal.null ∈ params) :
    execStmt w params = .error .typeError := by
  unfold execStmt
  rw [flattenParams_of_null_mem h]

/-- Witness for C8: a `null` in second position, on a mutation statement,
yields the TypeError even though `null` is a valid SQL binding value. -/
theorem execStmt_null_param_typeError_witness :
    execStmt ⟨"UPDATE t SET a = ?, b = ?", "run"⟩ [JSVal.str "x", JSVal.null] =
      .error .typeError :=
  execStmt_null_param_typeError ⟨"UPDATE t SET a = ?, b = ?", "run"⟩
    [JSVal.str "x", JSVal.null] (by simp)

/-- C10: the method field of every wrapped statement produced by `prepStmt`
is one of exactly "run", "get" and "all", and consequently `execStmt` on
such a statement never reaches the default branch: its result is either the
flattening TypeError or a successful call, never the Invalid-method
error. -/
theorem prepStmt_method_invariant (sql : String) (singleton : JSVal) :
    ((prepStmt sql singleton).method = "run" ∨ (prepStmt sql singleton).method = "get" ∨
      (prepStmt sql singleton).method = "all") ∧
    ∀ params, execStmt (prepStmt sql singleton) params = .error .typeError ∨
      ∃ call, execStmt (prepStmt sql singleton) params = .ok call := by
  have hmem : (prepStmt sql singleton).method = "run" ∨
      (prepStmt sql singleton).method = "get" ∨
      (prepStmt sql singleton).method = "all" := by
    unfold prepStmt
    dsimp only
    split
    · exact Or.inl rfl
    · split
      · exact Or.inr (Or.inl rfl)
      · exact Or.inr (Or.inr rfl)
  refine ⟨hmem, fun params => ?_⟩
  cases hfp : flattenParams params with
  | error e =>
      left
      have he := flattenParams_error hfp
      subst he
      unfold execStmt
      rw [hfp]
  | ok fp =>
      right
      rcases hmem with hm | hm | hm
      · exact ⟨.run fp, by unfold execStmt; rw [hfp, hm]; rfl⟩
      · exact ⟨.get fp, by unfold execStmt; rw [hfp, hm]; rfl⟩
      · exact ⟨.all fp, by unfold execStmt; rw [hfp, hm]; rfl⟩

/-- C4: connectDb uses a supplied non-empty filename as the database path;
with the filename omitted (no arguments, or a sole options-object argument)
it falls back to the SQLITE3_FILE environment variable; and when that is
unset or empty it falls back to the in-memory sentinel ":memory:". -/
theorem connectDb_filename_resolution (s e : String) (o : JSVal)
    (env : String → Option String) :
    (s ≠ "" → (connectDb [JSVal.str s] env).dbFilename = JSVal.str s) ∧
    (s ≠ "" → (connectDb [JSVal.str s, o] env).dbFilename = JSVal.str s) ∧
    (env "SQLITE3_FILE" = some e → e ≠ "" →
      (connectDb [] env).dbFilename = JSVal.str e ∧
      (o.typeofStr = "object" → (connectDb [o] env).dbFilename = JSVal.str e)) ∧
    ((env "SQLITE3_FILE" = none ∨ env "SQLITE3_FILE" = some "") →
      (connectDb [] env).dbFilename = JSVal.str ":memory:" ∧
      (o.typeofStr = "object" → (connectDb [o] env).dbFilename = JSVal.str ":memory:")) := by
  refine ⟨?_, ?_, ?_, ?_⟩
  · intro hs
    simp [connectDb, resolveArgs, resolveFilenameEnv, JSVal.typeofStr, JSVal.truthy, hs]
  · intro hs
    simp [connectDb, resolveArgs, resolveFilenameEnv, JSVal.truthy, hs]
  · intro he hne
    constructor
    · simp [connectDb, resolveArgs, resolveFilenameEnv, JSVal.truthy, he, hne]
    · intro ho
      simp [connectDb, resolveArgs, resolveFilenameEnv, JSVal.truthy, ho, he, hne]
  · intro he
    rcases he with he | he
    · constructor
      · simp [connectDb, resolveArgs, resolveFilenameEnv, JSVal.truthy, he]
      · intro ho
        simp [connectDb, resolveArgs, resolveFilenameEnv, JSVal.truthy, ho, he]
    · constructor
      · simp [connectDb, resolveArgs, resolveFilenameEnv, JSVal.truthy, he]
      · intro ho
        simp [connectDb, resolveArgs, resolveFilenameEnv, JSVal.truthy, ho, he]

/-- Witness for C4: a supplied filename wins; with no filename the
environment value is used; with only an options object and no environment
value the in-memory sentinel is used. -/
theorem connectDb_filename_resolution_witness :
    (connectDb [JSVal.str "data.db"] (fun _ => none)).dbFilename = JSVal.str "data.db" ∧
    (connectDb [] (fun k => if k = "SQLITE3_FILE" then some "env.db" else none)).dbFilename
      = JSVal.str "env.db" ∧
    (connectDb [JSVal.obj []] (fun _ => none)).dbFilename = JSVal.str ":memory:" := by
  refine ⟨?_, ?_, ?_⟩
  · exact (connectDb_filename_resolution "data.db" "" (JSVal.obj [])
      (fun _ => none)).1 (by decide)
  · exact ((connectDb_filename_resolution "" "env.db" (JSVal.obj [])
      (fun k => if k = "SQLITE3_FILE" then some "env.db" else none)).2.2.1
      (by decide) (by decide)).1
  · exact ((connectDb_filename_resolution "" "" (JSVal.obj [])
      (fun _ => none)).2.2.2 (Or.inl rfl)).2 rfl

/-- C9: a connectDb call with no usable filename while SQLITE3_FILE is unset
or empty assigns ":memory:" to SQLITE3_FILE in the process environment, and
no connectDb call modifies any other environment variable. -/
theorem connectDb_env_mutation (args : List JSVal) (env : String → Option String)
    (hf : (resolveArgs args).1.truthy = false)
    (he : env "SQLITE3_FILE" = none ∨ env "SQLITE3_FILE" = some "") :
    (connectDb args env).envAfter "SQLITE3_FILE" = some ":memory:" ∧
    (∀ args2 k, k ≠ "SQLITE3_FILE" → (connectDb args2 env).envAfter k = env k) := by
  constructor
  · rcases he with he | he <;>
      simp [connectDb, resolveFilenameEnv, hf, he]
  · intro args2 k hk
    cases ht : (resolveArgs args2).1.truthy with
    | true => simp [connectDb, resolveFilenameEnv, ht]
    | false =>
        cases hev : env "SQLITE3_FILE" with
        | none => simp [connectDb, resolveFilenameEnv, ht, hev, hk]
        | some s =>
            by_cases hs : s = ""
            · simp [connectDb, resolveFilenameEnv, ht, hev, hs, hk]
            · simp [connectDb, resolveFilenameEnv, ht, hev, hs]

/-- Witness for C9: with no arguments and an empty environment, SQLITE3_FILE
is set to ":memory:" while an unrelated variable stays untouched. -/
theorem connectDb_env_mutation_witness :
    (connectDb [] (fun _ => none)).envAfter "SQLITE3_FILE" = some ":memory:" ∧
    (connectDb [JSVal.str "other.db"] (fun _ => none)).envAfter "PATH" = none := by
  have h := connectDb_env_mutation [] (fun _ => none) rfl (Or.inl rfl)
  exact ⟨h.1, (h.2 [JSVal.str "other.db"] "PATH" (by decide)).trans rfl⟩

/-- C7: every handle returned by connectDb has had the journal_mode pragma
set to WAL and an exit cleanup hook registered among the effects performed
before the handle is returned. -/
theorem connectDb_wal_and_exit_hook (args : List JSVal) (env : String → Option String) :
    DbEffect.pragma "journal_mode = WAL" ∈ (connectDb args env).effects ∧
    DbEffect.registerExitHook ∈ (connectDb args env).effects := by
  constructor
  · simp [connectDb]
  · simp [connectDb]

/-- C5: disconnectDb never raises — whatever the underlying close does,
including throwing because the handle is already closed, the error is
caught and discarded and the function returns normally. -/
theorem disconnectDb_never_throws (closeResult : Except JSError Unit) :
    disconnectDb closeResult = .ok () := by
  cases closeResult <;> rfl

/-- Counterexample to C6 as stated: in an execution with one disconnectDb
call before exit, the single release of the handle is performed by the user
call, not by the shutdown hook. -/
theorem handle_release_counterexample :
    releaseEvents true (processCloses 1) = [CloseSource.user] ∧
    releaseEvents true (processCloses 1) ≠ [CloseSource.hook] := by
  exact ⟨rfl, by decide⟩

/-- C6 (amended): in every process execution the handle obtained from
connectDb is released exactly once — by the shutdown hook when disconnectDb
was never called on it, and by the first disconnectDb call otherwise, the
hook's subsequent close being a no-op. -/
theorem handle_released_exactly_once (n : Nat) :
    (releaseEvents true (processCloses n)).length = 1 ∧
    releaseEvents true (processCloses n) =
      (if n = 0 then [CloseSource.hook] else [CloseSource.user]) := by
  have hfalse : ∀ l : List CloseSource, releaseEvents false l = [] := by
    intro l
    induction l with
    | nil => rfl
    | cons s rest ih => simp [releaseEvents, ih]
  cases n with
  | zero => exact ⟨rfl, rfl⟩
  | succ k =>
      have hstep : releaseEvents true (processCloses (k + 1)) = [CloseSource.user] := by
        simp [processCloses, List.replicate_succ, releaseEvents, hfalse]
      rw [hstep]
      simp
